import Mathlib

/-!
Formal model of ButterflyDB (a single-node relational database written in Rust),
embedded shallowly in Lean, together with theorems settling claims about its
specification.  The embedding follows `src/db/btree/mod.rs` (pager and B+ tree),
`src/db/storage/mod.rs` (row store), `src/db/catalog/mod.rs` (catalog),
`src/db/server/mod.rs` (binary protocol), `src/db/sql/parser.rs` (expression
parser) and `src/db/executor/mod.rs` (value arithmetic and LIKE matching).
-/

namespace BDB

/-- Association-list lookup, modelling `HashMap::get` / cache lookup. -/
def alookup {α β : Type} [DecidableEq α] : List (α × β) → α → Option β
  | [], _ => none
  | (k, v) :: rest, key => if k = key then some v else alookup rest key

/-- Association-list insert-or-replace, modelling `HashMap::insert` /
`LruCache::put` (write-through page store). -/
def aupsert {α β : Type} [DecidableEq α] : List (α × β) → α → β → List (α × β)
  | [], key, v => [(key, v)]
  | (k, w) :: rest, key, v =>
      if k = key then (k, v) :: rest else (k, w) :: aupsert rest key v

/-- Association-list removal, modelling `HashMap::remove`. -/
def aerase {α β : Type} [DecidableEq α] : List (α × β) → α → List (α × β)
  | [], _ => []
  | (k, w) :: rest, key => if k = key then rest else (k, w) :: aerase rest key

/-- Byte strings (`Vec<u8>` in the source) modelled as lists of naturals. -/
abbrev Bytes := List Nat

/-- Strict lexicographic order on byte strings, matching the derived `Ord`
on `Vec<u8>` in Rust (shorter strict prefixes are smaller). -/
def bytesLt : Bytes → Bytes → Bool
  | [], [] => false
  | [], _ :: _ => true
  | _ :: _, [] => false
  | a :: as, b :: bs => a < b || (a == b && bytesLt as bs)

/-- Non-strict lexicographic order; `a <= b` in Rust equals `a < b || a == b`
for the total order on `Vec<u8>`. -/
def bytesLe (a b : Bytes) : Bool := bytesLt a b || a == b

/-- `BTREE_ORDER` from `src/db/btree/mod.rs` (max keys per node). -/
def BTREE_ORDER : Nat := 32

/-- The `BPlusNode` enum from `src/db/btree/mod.rs`: an internal node holds
`(separator_key, child_page)` entries plus a rightmost child page id; a leaf
holds `(key, value)` entries plus `next_leaf` and `prev_leaf` page ids. -/
inductive BPlusNode : Type
  | internal (entries : List (Bytes × Nat)) (rightChild : Nat)
  | leaf (entries : List (Bytes × Bytes)) (nextLeaf prevLeaf : Nat)
deriving DecidableEq

namespace BPlusNode

/-- `BPlusNode::len`: the entry count of a node. -/
def len : BPlusNode → Nat
  | internal entries _ => entries.length
  | leaf entries _ _ => entries.length

/-- `BPlusNode::is_full`: a node is full when `len() >= BTREE_ORDER - 1`. -/
def isFull (n : BPlusNode) : Bool := BTREE_ORDER - 1 ≤ n.len

end BPlusNode

/-- The pager state (`Pager` in `src/db/btree/mod.rs`).
`pages` maps a page id to the node decoded from that page
(`DiskPage::to_node`); pages that hold no decodable node (freshly allocated
`Free` pages, whose payload length field is zero) are simply absent, matching
`to_node` returning `None` for them.  Node serialization is modelled as the
identity: `DiskPage::from_node` followed by `to_node` round-trips (the silent
truncation of payloads longer than `PAGE_SIZE - 8` is not modelled; none of
the violations proved below depend on it).  The LRU cache is invisible at
this level because `write_page` is write-through and `insert_into_node` /
`delete_from_node` call `invalidate` before reading.  `dirty` records whether
file writes have happened since the last `File::sync_all` (fsync); it is the
durability observable of the claims. -/
structure Pager : Type where
  pages : List (Nat × BPlusNode)
  totalPages : Nat
  rootPage : Nat
  dirty : Bool
deriving DecidableEq

namespace Pager

/-- `Pager::open` on a fresh file: writes a default header
(`total_pages = 1`, `root_page = 0`) and `sync_all`s it. -/
def openFresh : Pager :=
  { pages := [], totalPages := 1, rootPage := 0, dirty := false }

/-- `Pager::read_page` followed by `DiskPage::to_node`. -/
def readPage (p : Pager) (pageId : Nat) : Option BPlusNode :=
  alookup p.pages pageId

/-- `Pager::write_page` of `DiskPage::from_node(pageId, node)`: writes
through to the file (leaving an unflushed write) and refreshes the cache. -/
def writePage (p : Pager) (pageId : Nat) (node : BPlusNode) : Pager :=
  { p with pages := aupsert p.pages pageId node, dirty := true }

/-- `Pager::allocate_page`: takes `total_pages` as the new page id,
increments it, writes the header back, and zeroes the new page (a `Free`
page whose `to_node` is `None`, hence absent from `pages`). -/
def allocatePage (p : Pager) : Nat × Pager :=
  (p.totalPages, { p with totalPages := p.totalPages + 1, dirty := true })

/-- `Pager::set_root_page`: updates the header's root field and rewrites the
header page (unflushed). -/
def setRootPage (p : Pager) (pageId : Nat) : Pager :=
  { p with rootPage := pageId, dirty := true }

/-- `Pager::sync`: rewrites the header and calls `File::sync_all` (fsync),
flushing every outstanding write. -/
def sync (p : Pager) : Pager := { p with dirty := false }

end Pager

namespace BPlusTree

/-- `BPlusTree::open` on a fresh path: opens a fresh pager and, since
`root_page == 0`, allocates one leaf page, writes an empty leaf to it and
stores its id as the root. -/
def openFresh : Pager :=
  let p := Pager.openFresh
  let (rootId, p) := p.allocatePage
  let p := p.writePage rootId (BPlusNode.leaf [] 0 0)
  p.setRootPage rootId

/-- The leaf arm of `BPlusTree::insert_into_node`: linear-scan for the first
entry whose key is greater than `key` (`position(|e| e.key > key)`, defaulting
to `entries.len()`); if the entry just before that position carries exactly
`key`, overwrite its value in place, otherwise insert `(key, value)` at the
position. -/
def leafUpsert (entries : List (Bytes × Bytes)) (key value : Bytes) :
    List (Bytes × Bytes) :=
  let pos := entries.findIdx (fun e => bytesLt key e.1)
  match entries.getD (pos - 1) ([], []) with
  | e =>
    if 0 < pos ∧ e.1 = key then entries.set (pos - 1) (e.1, value)
    else entries.insertIdx pos (key, value)

/-- The child-selection scan shared by `insert_into_node`,
`delete_from_node` and `search_node` on an internal node: the first entry
whose separator key is `>= key` wins, else the rightmost child. -/
def pickChild (entries : List (Bytes × Nat)) (rightChild : Nat) (key : Bytes) :
    Nat :=
  match entries.find? (fun e => bytesLe key e.1) with
  | some e => e.2
  | none => rightChild

/-- `BPlusTree::insert_into_node`, with explicit recursion fuel (the Rust
code recurses down the page graph; on every state reachable here the depth
is finite, and `none` only signals exhausted fuel).  The initial
`invalidate` + `read_page` pair amounts to reading the stored page; a page
with no decodable node falls back to a new leaf (`unwrap_or_else(new_leaf)`). -/
def insertIntoNode : Nat → Pager → Nat → Bytes → Bytes → Option Pager
  | 0, _, _, _, _ => none
  | fuel + 1, p, pageId, key, value =>
    match (p.readPage pageId).getD (BPlusNode.leaf [] 0 0) with
    | BPlusNode.leaf entries nextLeaf prevLeaf =>
        some (p.writePage pageId
          (BPlusNode.leaf (leafUpsert entries key value) nextLeaf prevLeaf))
    | BPlusNode.internal entries rightChild =>
        insertIntoNode fuel p (pickChild entries rightChild key) key value

/-- `BPlusTree::split_node`: returns the mutated left node, the promoted
median key, and the new right sibling.  A leaf keeps entries `[0, mid)` and
moves `[mid, len)` right, promoting (copying) the right sibling's first key;
the right sibling inherits the left's `next_leaf` and gets `prev_leaf = 0`.
An internal node removes the entry at `mid` as the median, keeps entries
before it, moves entries after it right; the right sibling keeps the old
rightmost child, while the left node's rightmost child becomes the median
entry's child pointer. -/
def splitNode : BPlusNode → BPlusNode × Bytes × BPlusNode
  | BPlusNode.leaf entries nextLeaf prevLeaf =>
      let mid := entries.length / 2
      let rightEntries := entries.drop mid
      let medianKey := (rightEntries.getD 0 ([], [])).1
      (BPlusNode.leaf (entries.take mid) nextLeaf prevLeaf, medianKey,
       BPlusNode.leaf rightEntries nextLeaf 0)
  | BPlusNode.internal entries rightChild =>
      let mid := entries.length / 2
      let median := entries.getD mid ([], 0)
      let rest := entries.eraseIdx mid
      (BPlusNode.internal (rest.take mid) median.2, median.1,
       BPlusNode.internal (rest.drop mid) rightChild)

/-- `BPlusTree::insert`.  If the root is full, split it: allocate a new root
page and a new right-sibling page, write back the halves, install a new
internal root with the median as its single separator, and then insert into
the left child when `key <= median_key`, else into the right child.
Otherwise insert into the (non-full) root directly.  Note that `sync()` is
NOT called on this path (the source comments: "sync() is NOT called here for
performance / Call sync() explicitly or use batch_insert() for durability"). -/
def insert (fuel : Nat) (p : Pager) (key value : Bytes) : Option Pager :=
  let rootId := p.rootPage
  let root := (p.readPage rootId).getD (BPlusNode.leaf [] 0 0)
  if root.isFull then
    let (newRootId, p) := p.allocatePage
    let (newChildId, p) := p.allocatePage
    let (left, medianKey, right) := splitNode root
    let p := p.writePage rootId left
    let p := p.writePage newChildId right
    let p := p.writePage newRootId
      (BPlusNode.internal [(medianKey, rootId)] newChildId)
    let p := p.setRootPage newRootId
    if bytesLe key medianKey then insertIntoNode fuel p rootId key value
    else insertIntoNode fuel p newChildId key value
  else
    insertIntoNode fuel p rootId key value

/-- The loop body of `BPlusTree::batch_insert` applied to a list of entries:
for each pair it re-reads the root and, when the root is full, falls back to
the regular `insert` (which performs the split), otherwise calls
`insert_into_node` on the root — in either case exactly the body of
`insert`, with no intermediate syncs. -/
def batchGo : Nat → Pager → List (Bytes × Bytes) → Option Pager
  | _, p, [] => some p
  | fuel, p, (key, value) :: rest =>
      match insert fuel p key value with
      | none => none
      | some p => batchGo fuel p rest

/-- `BPlusTree::batch_insert`: applies the entries in order with no
intermediate syncs, issues exactly one `sync()` at the end, and returns the
number of entries processed. -/
def batchInsert (fuel : Nat) (p : Pager) (entries : List (Bytes × Bytes)) :
    Option (Pager × Nat) :=
  match batchGo fuel p entries with
  | none => none
  | some p => some (p.sync, entries.length)

/-- `BPlusTree::delete_from_node`: at a leaf, retain the entries whose key
differs from `key` and write the page back when something was removed; at an
internal node, descend into the first entry whose separator is `>= key`,
else the rightmost child. -/
def deleteFromNode : Nat → Pager → Nat → Bytes → Option (Pager × Bool)
  | 0, _, _, _ => none
  | fuel + 1, p, pageId, key =>
    match p.readPage pageId with
    | none => some (p, false)
    | some (BPlusNode.leaf entries nextLeaf prevLeaf) =>
        let kept := entries.filter (fun e => e.1 ≠ key)
        if kept.length < entries.length then
          some (p.writePage pageId
            (BPlusNode.leaf kept nextLeaf prevLeaf), true)
        else some (p, false)
    | some (BPlusNode.internal entries rightChild) =>
        deleteFromNode fuel p (pickChild entries rightChild key) key

/-- `BPlusTree::delete`: descends from the root and then calls
`self.pager.sync()` before returning whether a key was removed. -/
def delete (fuel : Nat) (p : Pager) (key : Bytes) : Option (Pager × Bool) :=
  match deleteFromNode fuel p p.rootPage key with
  | none => none
  | some (p, deleted) => some (p.sync, deleted)

/-- In-order traversal of `BPlusTree::scan_node`, realised as an explicit
worklist: an internal node pushes its children in order followed by its
rightmost child (then the parent's continuation resumes); a leaf yields its
entries in order; a page with no decodable node contributes nothing.  This
visits exactly the pages, in exactly the order, of the recursive Rust
traversal. -/
def scanGo : Nat → Pager → List Nat → List (Bytes × Bytes) →
    Option (List (Bytes × Bytes))
  | 0, _, _, _ => none
  | _ + 1, _, [], acc => some acc
  | fuel + 1, p, pageId :: stack, acc =>
    match p.readPage pageId with
    | none => scanGo fuel p stack acc
    | some (BPlusNode.leaf entries _ _) => scanGo fuel p stack (acc ++ entries)
    | some (BPlusNode.internal entries rightChild) =>
        scanGo fuel p (entries.map (fun e => e.2) ++ [rightChild] ++ stack) acc

/-- `BPlusTree::scan` collecting every `(key, value)` pair in visit order. -/
def scan (fuel : Nat) (p : Pager) : Option (List (Bytes × Bytes)) :=
  scanGo fuel p [p.rootPage] []

/-- `BPlusTree::count`: scans the tree counting entries. -/
def count (fuel : Nat) (p : Pager) : Option Nat :=
  match scan fuel p with
  | none => none
  | some entries => some entries.length

/-- All tree nodes reachable from the given pages (used to state the node
invariants of the specification), collected with the same worklist
discipline as `scanGo`. -/
def reachGo : Nat → Pager → List Nat → List BPlusNode →
    Option (List BPlusNode)
  | 0, _, _, _ => none
  | _ + 1, _, [], acc => some acc
  | fuel + 1, p, pageId :: stack, acc =>
    match p.readPage pageId with
    | none => reachGo fuel p stack acc
    | some (BPlusNode.leaf entries nextLeaf prevLeaf) =>
        reachGo fuel p stack (acc ++ [BPlusNode.leaf entries nextLeaf prevLeaf])
    | some (BPlusNode.internal entries rightChild) =>
        reachGo fuel p (entries.map (fun e => e.2) ++ [rightChild] ++ stack)
          (acc ++ [BPlusNode.internal entries rightChild])

/-- The nodes reachable from the root page. -/
def reachableNodes (fuel : Nat) (p : Pager) : Option (List BPlusNode) :=
  reachGo fuel p [p.rootPage] []

end BPlusTree

/-- Strict ascending order of a list of byte-string keys (the order a scan
is claimed to produce). -/
def strictlyAscending : List Bytes → Bool
  | [] => true
  | [_] => true
  | a :: b :: rest => bytesLt a b && strictlyAscending (b :: rest)

end BDB

namespace Storage

/-- Rows (`HashMap<String, Value>` in `src/db/storage/mod.rs`) modelled
opaquely: the storage-engine logic under scrutiny (claim C2) treats a row
only as a unit that is stored, filtered by a predicate, serialized with
`bincode` (injectively) and re-inserted.  A natural number stands for a
row's content. -/
abbrev RowM := Nat

/-- `bincode::serialize` of a `SerializableRow`, modelled as an injective
encoding of the row into bytes. -/
def serializeRow (r : RowM) : BDB.Bytes := [r]

/-- One table of the storage engine: the in-memory row vector
(`TableData::rows`), the mirrored B+ tree, and the state of
`generate_row_key`.  The Rust key is `format!("{}_{}", table, nanos)` with a
strictly increasing nanosecond timestamp; the model keeps the increasing
counter (freshness and monotonicity are all the code relies on). -/
structure TableState : Type where
  rows : List RowM
  tree : BDB.Pager
  nextKey : Nat
deriving DecidableEq

/-- `Storage::generate_row_key`: yields a fresh, strictly larger key. -/
def genRowKey (s : TableState) : BDB.Bytes × TableState :=
  ([s.nextKey], { s with nextKey := s.nextKey + 1 })

/-- A table as produced by `Storage::get_or_create_table` on a fresh data
directory: empty row vector, freshly opened B+ tree. -/
def freshTable : TableState :=
  { rows := [], tree := BDB.BPlusTree.openFresh, nextKey := 0 }

/-- `Storage::insert`: appends the row to the in-memory vector, then
persists it into the B+ tree under a fresh row key. -/
def storageInsert (fuel : Nat) (s : TableState) (row : RowM) :
    Option TableState :=
  let s := { s with rows := s.rows ++ [row] }
  let (key, s) := genRowKey s
  match BDB.BPlusTree.insert fuel s.tree key (serializeRow row) with
  | none => none
  | some tree => some { s with tree := tree }

/-- The re-insertion loop shared by `Storage::delete` and
`Storage::update`: every remaining row is inserted into the B+ tree again
under a fresh key.  Nothing is ever removed from the tree first, despite
the source comment "Clear and rebuild B+ tree". -/
def reinsertRows (fuel : Nat) : TableState → List RowM → Option TableState
  | s, [] => some s
  | s, row :: rest =>
      let (key, s) := genRowKey s
      match BDB.BPlusTree.insert fuel s.tree key (serializeRow row) with
      | none => none
      | some tree => reinsertRows fuel { s with tree := tree } rest

/-- `Storage::delete`: retains in memory the rows for which the predicate is
false, and when anything was deleted re-inserts every remaining row into the
(uncleared) B+ tree under fresh keys.  Returns the new state and the number
of rows removed from memory. -/
def storageDelete (fuel : Nat) (s : TableState) (pred : RowM → Bool) :
    Option (TableState × Nat) :=
  let kept := s.rows.filter (fun row => ¬ pred row)
  let deleted := s.rows.length - kept.length
  let s := { s with rows := kept }
  if 0 < deleted then
    match reinsertRows fuel s kept with
    | none => none
    | some s => some (s, deleted)
  else some (s, deleted)

/-- The row contents recoverable from a table's B+ tree by scanning it (the
cold-start path `Storage::load_all` deserializes every scanned value). -/
def treeRows (fuel : Nat) (s : TableState) : Option (List BDB.Bytes) :=
  match BDB.BPlusTree.scan fuel s.tree with
  | none => none
  | some entries => some (entries.map (fun e => e.2))

end Storage

namespace Catalog

/-- `ColumnSchema` from `src/db/catalog/mod.rs`. -/
structure ColumnSchema : Type where
  name : String
  dataType : String
  nullable : Bool
  isPrimaryKey : Bool
deriving DecidableEq

/-- `TableSchema`; `created_at` is the timestamp `TableSchema::new` takes
from the clock, passed in explicitly here. -/
structure TableSchema : Type where
  name : String
  columns : List ColumnSchema
  createdAt : String
deriving DecidableEq

/-- `DatabaseSchema`: the `tables` hash map modelled as an association
list. -/
structure DatabaseSchema : Type where
  name : String
  tables : List (String × TableSchema)
deriving DecidableEq

/-- `CatalogData`: all databases plus the selected current database. -/
structure CatalogData : Type where
  databases : List (String × DatabaseSchema)
  currentDatabase : Option String
deriving DecidableEq

/-- `Catalog::create_database`.  Persistence (`self.save()`) only writes the
returned state to disk and is not modelled; error messages are abbreviated.
On `AlreadyExists` with the flag set the function returns `Ok` before any
mutation, so the state is unchanged. -/
def createDatabase (name : String) (ifNotExists : Bool) (d : CatalogData) :
    Except String CatalogData :=
  if (BDB.alookup d.databases name).isSome then
    if ifNotExists then Except.ok d
    else Except.error ("Database " ++ name ++ " already exists")
  else
    Except.ok
      { databases := BDB.aupsert d.databases name { name := name, tables := [] }
        currentDatabase :=
          if d.currentDatabase.isNone then some name else d.currentDatabase }

/-- `Catalog::drop_database`: on `NotFound` with the flag set returns `Ok`
with no state change; otherwise removes the database and, if it was current,
re-points current at an arbitrary remaining database (the hash map's first
key) or `None`. -/
def dropDatabase (name : String) (ifExists : Bool) (d : CatalogData) :
    Except String CatalogData :=
  if (BDB.alookup d.databases name).isNone then
    if ifExists then Except.ok d
    else Except.error ("Database " ++ name ++ " does not exist")
  else
    let dbs := BDB.aerase d.databases name
    Except.ok
      { databases := dbs
        currentDatabase :=
          if d.currentDatabase = some name then (dbs.head?).map (fun e => e.1)
          else d.currentDatabase }

/-- `Catalog::create_table` in the current database; `now` is the creation
timestamp `TableSchema::new` reads from the clock. -/
def createTable (name : String) (columns : List ColumnSchema)
    (ifNotExists : Bool) (now : String) (d : CatalogData) :
    Except String CatalogData :=
  match d.currentDatabase with
  | none => Except.error "No database selected"
  | some dbName =>
    match BDB.alookup d.databases dbName with
    | none => Except.error ("Database " ++ dbName ++ " not found")
    | some db =>
      if (BDB.alookup db.tables name).isSome then
        if ifNotExists then Except.ok d
        else Except.error ("Table " ++ name ++ " already exists")
      else
        let tbl : TableSchema :=
          { name := name, columns := columns, createdAt := now }
        let db2 : DatabaseSchema :=
          { db with tables := BDB.aupsert db.tables name tbl }
        Except.ok { d with databases := BDB.aupsert d.databases dbName db2 }

/-- `Catalog::drop_table` from the current database. -/
def dropTable (name : String) (ifExists : Bool) (d : CatalogData) :
    Except String CatalogData :=
  match d.currentDatabase with
  | none => Except.error "No database selected"
  | some dbName =>
    match BDB.alookup d.databases dbName with
    | none => Except.error ("Database " ++ dbName ++ " not found")
    | some db =>
      if (BDB.alookup db.tables name).isNone then
        if ifExists then Except.ok d
        else Except.error ("Table " ++ name ++ " does not exist")
      else
        let db2 : DatabaseSchema := { db with tables := BDB.aerase db.tables name }
        Except.ok { d with databases := BDB.aupsert d.databases dbName db2 }

/-- A concrete table schema used to witness the flag-semantics theorem. -/
def exampleTable : TableSchema := { name := "t", columns := [], createdAt := "ts" }

/-- A concrete database holding the table `t`. -/
def exampleDatabase : DatabaseSchema :=
  { name := "default", tables := [("t", exampleTable)] }

/-- A concrete catalog used to witness the flag-semantics theorem: one
database `default` (current) containing one table `t`. -/
def exampleCatalog : CatalogData :=
  { databases := [("default", exampleDatabase)]
    currentDatabase := some "default" }

end Catalog

namespace Server

/-- `MessageType` from `src/db/server/mod.rs`. -/
inductive MessageType : Type
  | query
  | result
  | error
  | ping
  | pong
deriving DecidableEq

/-- The discriminant values (`Query=1, Result=2, Error=3, Ping=4, Pong=5`). -/
def MessageType.code : MessageType → Nat
  | MessageType.query => 1
  | MessageType.result => 2
  | MessageType.error => 3
  | MessageType.ping => 4
  | MessageType.pong => 5

/-- `impl From<u8> for MessageType`: unknown bytes map to `Error`. -/
def MessageType.ofByte : Nat → MessageType
  | 1 => MessageType.query
  | 2 => MessageType.result
  | 3 => MessageType.error
  | 4 => MessageType.ping
  | _ => MessageType.error

/-- A binary protocol frame: `[length: u32 LE][type: u8][payload]`. -/
structure Message : Type where
  msgType : MessageType
  payload : List Nat
deriving DecidableEq

/-- A `u32` in little-endian byte order. -/
def u32le (n : Nat) : List Nat :=
  [n % 256, n / 256 % 256, n / 256 ^ 2 % 256, n / 256 ^ 3 % 256]

/-- `Message::to_bytes`: length prefix, type byte, payload. -/
def Message.toBytes (m : Message) : List Nat :=
  u32le m.payload.length ++ [m.msgType.code] ++ m.payload

/-- `Message::read_async`: reads exactly 4 length bytes, 1 type byte and
`length` payload bytes; a short read is an error (`none`), which ends the
connection. -/
def Message.readFrom (bytes : List Nat) : Option Message :=
  match bytes with
  | b0 :: b1 :: b2 :: b3 :: t :: rest =>
      let len := b0 + 256 * b1 + 256 ^ 2 * b2 + 256 ^ 3 * b3
      if rest.length < len then none
      else some { msgType := MessageType.ofByte t, payload := rest.take len }
  | _ => none

/-- The ASCII bytes of `"Unknown command"`. -/
def unknownCommand : List Nat :=
  [85, 110, 107, 110, 111, 119, 110, 32, 99, 111, 109, 109, 97, 110, 100]

/-- One iteration of the request/response loop in `handle_tcp_protocol`:
each inbound frame is answered by exactly one outbound frame.  `execSqlJson`
abstracts `|sql| execute_sql(&sql).to_json()` (payloads are the UTF-8 bytes
of the SQL text and of the JSON serialization of the `ExecutionResult`).
A `Query` frame is answered by a `Result` frame carrying that JSON, a `Ping`
frame by a `Pong` frame with empty payload, and every other inbound type by
an `Error` frame with payload `"Unknown command"`. -/
def handleFrame (execSqlJson : List Nat → List Nat) (m : Message) : Message :=
  match m.msgType with
  | MessageType.query =>
      { msgType := MessageType.result, payload := execSqlJson m.payload }
  | MessageType.ping => { msgType := MessageType.pong, payload := [] }
  | _ => { msgType := MessageType.error, payload := unknownCommand }

end Server

namespace SQL

/-- The tokens of `src/db/sql/constants.rs` restricted to the expression
fragment exercised by the claims (statement-level keywords such as SELECT or
CASE, whose parser branches require the full statement parser, are outside
the modelled alphabet; no theorem below touches them).  `Token::In` is
rendered `inKw` and `Token::And`/`Or`/`Not` get a `Kw` suffix because the
bare words are Lean keywords or core names. -/
inductive Token : Type
  | identifier (name : String)
  | stringLit (s : String)
  | numberLit (n : String)
  | booleanLit (b : Bool)
  | nullKw
  | equals
  | notEquals
  | lessThan
  | lessThanOrEqual
  | greaterThan
  | greaterThanOrEqual
  | plus
  | minus
  | star
  | divide
  | modulo
  | notKw
  | andKw
  | orKw
  | likeKw
  | inKw
  | betweenKw
  | leftParen
  | rightParen
  | comma
  | dot
  | eof
deriving DecidableEq

/-- `Literal` from `src/db/sql/constants.rs`. -/
inductive Literal : Type
  | str (s : String)
  | number (n : String)
  | boolean (b : Bool)
  | nullLit
deriving DecidableEq

/-- `BinaryOperator` from `src/db/sql/constants.rs`. -/
inductive BinaryOperator : Type
  | equals
  | notEquals
  | lessThan
  | lessThanOrEqual
  | greaterThan
  | greaterThanOrEqual
  | plus
  | minus
  | multiply
  | divide
  | modulo
  | andOp
  | orOp
  | likeOp
  | inOp
  | between
deriving DecidableEq

/-- `UnaryOperator` from `src/db/sql/constants.rs`. -/
inductive UnaryOperator : Type
  | notOp
  | minus
  | plus
deriving DecidableEq

/-- `Expression` from `src/db/sql/parser.rs`, without the `Subquery` variant
(which embeds a full `Statement`; the parser branches producing it are
outside the modelled fragment) and without `Case` for the same reason. -/
inductive Expression : Type
  | literal (l : Literal)
  | identifier (name : String)
  | binaryOp (left : Expression) (operator : BinaryOperator)
      (right : Expression)
  | unaryOp (operator : UnaryOperator) (operand : Expression)
  | functionCall (name : String) (args : List Expression)
  | qualifiedColumn (table column : String)
  | aliasE (expr : Expression) (aliasName : String)

/-- The parser state is the list of unconsumed tokens; `peek` yields `Eof`
past the end (`Parser::peek`). -/
def peekT (ts : List Token) : Token := ts.headD Token.eof

/-- Result type of the expression parsers: the parsed node plus the
remaining tokens, or a `ParseError` (message only; positions dropped). -/
abbrev PRes (α : Type) := Except String (α × List Token)

/-- `Parser::expect`, specialised to the punctuation and keyword tokens used
here (discriminant comparison equals equality for payload-free tokens). -/
def expectT (expected : Token) (ts : List Token) : Except String (List Token) :=
  if peekT ts = expected then Except.ok ts.tail
  else Except.error "Expected token not found"

/-- `Parser::match_comparison_operator`. -/
def matchComparisonOperator : Token → Option BinaryOperator
  | Token.lessThan => some BinaryOperator.lessThan
  | Token.lessThanOrEqual => some BinaryOperator.lessThanOrEqual
  | Token.greaterThan => some BinaryOperator.greaterThan
  | Token.greaterThanOrEqual => some BinaryOperator.greaterThanOrEqual
  | Token.likeKw => some BinaryOperator.likeOp
  | Token.inKw => some BinaryOperator.inOp
  | Token.betweenKw => some BinaryOperator.between
  | _ => none

/-- `Parser::match_equality_operator`. -/
def matchEqualityOperator : Token → Option BinaryOperator
  | Token.equals => some BinaryOperator.equals
  | Token.notEquals => some BinaryOperator.notEquals
  | _ => none

/-- `Parser::match_additive_operator`. -/
def matchAdditiveOperator : Token → Option BinaryOperator
  | Token.plus => some BinaryOperator.plus
  | Token.minus => some BinaryOperator.minus
  | _ => none

/-- `Parser::match_multiplicative_operator` (the tokenizer emits `Star`
for `*`). -/
def matchMultiplicativeOperator : Token → Option BinaryOperator
  | Token.star => some BinaryOperator.multiply
  | Token.divide => some BinaryOperator.divide
  | Token.modulo => some BinaryOperator.modulo
  | _ => none

/-- The comma-separated continuation of `Parser::parse_expression_list`,
parameterised by the top-level expression parser `pe` and loop fuel. -/
def exprListLoop (pe : List Token → PRes Expression) :
    Nat → List Expression → List Token →
    Except String (List Expression × List Token)
  | 0, _, _ => Except.error "recursion limit"
  | fuel + 1, acc, ts =>
    if peekT ts = Token.comma then
      match pe ts.tail with
      | Except.error e => Except.error e
      | Except.ok (e, ts) => exprListLoop pe fuel (acc ++ [e]) ts
    else Except.ok (acc, ts)

/-- `Parser::parse_expression_list`: one expression, then zero or more
comma-separated expressions. -/
def parseExpressionList (pe : List Token → PRes Expression) (fuel : Nat)
    (ts : List Token) : Except String (List Expression × List Token) :=
  match pe ts with
  | Except.error e => Except.error e
  | Except.ok (e, ts) => exprListLoop pe fuel [e] ts

/-- `Parser::parse_primary_expression`: literals, identifiers (with
function-call and `table.column` forms) and parenthesized expressions.  The
source checks a parenthesized `SELECT` for a subquery; `SELECT` is outside
the modelled alphabet, so only the plain-expression arm appears, and the
`CASE` arm is likewise outside the fragment. -/
def parsePrimaryExpression (pe : List Token → PRes Expression) (fuel : Nat)
    (ts : List Token) : PRes Expression :=
  match peekT ts with
  | Token.stringLit s => Except.ok (Expression.literal (Literal.str s), ts.tail)
  | Token.numberLit n =>
      Except.ok (Expression.literal (Literal.number n), ts.tail)
  | Token.booleanLit b =>
      Except.ok (Expression.literal (Literal.boolean b), ts.tail)
  | Token.nullKw => Except.ok (Expression.literal Literal.nullLit, ts.tail)
  | Token.identifier name =>
      let ts := ts.tail
      if peekT ts = Token.leftParen then
        let ts := ts.tail
        if peekT ts = Token.rightParen then
          Except.ok (Expression.functionCall name [], ts.tail)
        else
          match parseExpressionList pe fuel ts with
          | Except.error e => Except.error e
          | Except.ok (args, ts) =>
            match expectT Token.rightParen ts with
            | Except.error e => Except.error e
            | Except.ok ts => Except.ok (Expression.functionCall name args, ts)
      else if peekT ts = Token.dot then
        match peekT ts.tail with
        | Token.identifier column =>
            Except.ok (Expression.qualifiedColumn name column, ts.tail.tail)
        | _ => Except.error "Expected column name after dot"
      else Except.ok (Expression.identifier name, ts)
  | Token.leftParen =>
      match pe ts.tail with
      | Except.error e => Except.error e
      | Except.ok (e, ts) =>
        match expectT Token.rightParen ts with
        | Except.error e => Except.error e
        | Except.ok ts => Except.ok (e, ts)
  | _ => Except.error "Unexpected token in expression"

/-- `Parser::parse_unary_expression`: `NOT`, `-`, `+` chains, else a
primary expression. -/
def parseUnaryExpression (pe : List Token → PRes Expression) :
    Nat → List Token → PRes Expression
  | 0, _ => Except.error "recursion limit"
  | fuel + 1, ts =>
    match peekT ts with
    | Token.notKw =>
      match parseUnaryExpression pe fuel ts.tail with
      | Except.error e => Except.error e
      | Except.ok (operand, ts) =>
          Except.ok (Expression.unaryOp UnaryOperator.notOp operand, ts)
    | Token.minus =>
      match parseUnaryExpression pe fuel ts.tail with
      | Except.error e => Except.error e
      | Except.ok (operand, ts) =>
          Except.ok (Expression.unaryOp UnaryOperator.minus operand, ts)
    | Token.plus =>
      match parseUnaryExpression pe fuel ts.tail with
      | Except.error e => Except.error e
      | Except.ok (operand, ts) =>
          Except.ok (Expression.unaryOp UnaryOperator.plus operand, ts)
    | _ => parsePrimaryExpression pe fuel ts

/-- The `*`, `/`, `%` loop of `Parser::parse_multiplicative_expression`. -/
def mulLoop (pe : List Token → PRes Expression) :
    Nat → Expression → List Token → PRes Expression
  | 0, _, _ => Except.error "recursion limit"
  | fuel + 1, left, ts =>
    match matchMultiplicativeOperator (peekT ts) with
    | none => Except.ok (left, ts)
    | some op =>
      match parseUnaryExpression pe fuel ts.tail with
      | Except.error e => Except.error e
      | Except.ok (right, ts) =>
          mulLoop pe fuel (Expression.binaryOp left op right) ts

/-- `Parser::parse_multiplicative_expression`. -/
def parseMultiplicativeExpression (pe : List Token → PRes Expression)
    (fuel : Nat) (ts : List Token) : PRes Expression :=
  match parseUnaryExpression pe fuel ts with
  | Except.error e => Except.error e
  | Except.ok (left, ts) => mulLoop pe fuel left ts

/-- The `+`, `-` loop of `Parser::parse_additive_expression`. -/
def addLoop (pe : List Token → PRes Expression) :
    Nat → Expression → List Token → PRes Expression
  | 0, _, _ => Except.error "recursion limit"
  | fuel + 1, left, ts =>
    match matchAdditiveOperator (peekT ts) with
    | none => Except.ok (left, ts)
    | some op =>
      match parseMultiplicativeExpression pe fuel ts.tail with
      | Except.error e => Except.error e
      | Except.ok (right, ts) =>
          addLoop pe fuel (Expression.binaryOp left op right) ts

/-- `Parser::parse_additive_expression`. -/
def parseAdditiveExpression (pe : List Token → PRes Expression) (fuel : Nat)
    (ts : List Token) : PRes Expression :=
  match parseMultiplicativeExpression pe fuel ts with
  | Except.error e => Except.error e
  | Except.ok (left, ts) => addLoop pe fuel left ts

/-- The comparison-operator loop of `Parser::parse_comparison_expression`.
On `BETWEEN`, the low and high bounds are parsed as additive expressions
around an expected `AND`, and the result is the rewritten conjunction
`left >= low AND left <= high`.  On `IN`, a parenthesized value list becomes
`left IN IN_LIST(values)` (the subquery arm tests for `SELECT`, outside the
modelled alphabet).  Other comparison operators fold left-associatively. -/
def compLoop (pe : List Token → PRes Expression) :
    Nat → Expression → List Token → PRes Expression
  | 0, _, _ => Except.error "recursion limit"
  | fuel + 1, left, ts =>
    match matchComparisonOperator (peekT ts) with
    | none => Except.ok (left, ts)
    | some op =>
      if op = BinaryOperator.between then
        match parseAdditiveExpression pe fuel ts.tail with
        | Except.error e => Except.error e
        | Except.ok (low, ts) =>
          match expectT Token.andKw ts with
          | Except.error e => Except.error e
          | Except.ok ts =>
            match parseAdditiveExpression pe fuel ts with
            | Except.error e => Except.error e
            | Except.ok (high, ts) =>
              compLoop pe fuel
                (Expression.binaryOp
                  (Expression.binaryOp left
                    BinaryOperator.greaterThanOrEqual low)
                  BinaryOperator.andOp
                  (Expression.binaryOp left
                    BinaryOperator.lessThanOrEqual high)) ts
      else if op = BinaryOperator.inOp then
        match expectT Token.leftParen ts.tail with
        | Except.error e => Except.error e
        | Except.ok ts =>
          match parseExpressionList pe fuel ts with
          | Except.error e => Except.error e
          | Except.ok (values, ts) =>
            match expectT Token.rightParen ts with
            | Except.error e => Except.error e
            | Except.ok ts =>
              compLoop pe fuel
                (Expression.binaryOp left BinaryOperator.inOp
                  (Expression.functionCall "IN_LIST" values)) ts
      else
        match parseAdditiveExpression pe fuel ts.tail with
        | Except.error e => Except.error e
        | Except.ok (right, ts) =>
            compLoop pe fuel (Expression.binaryOp left op right) ts

/-- `Parser::parse_comparison_expression`. -/
def parseComparisonExpression (pe : List Token → PRes Expression)
    (fuel : Nat) (ts : List Token) : PRes Expression :=
  match parseAdditiveExpression pe fuel ts with
  | Except.error e => Except.error e
  | Except.ok (left, ts) => compLoop pe fuel left ts

/-- The `=`, `<>`, `!=` loop of `Parser::parse_equality_expression`. -/
def eqLoop (pe : List Token → PRes Expression) :
    Nat → Expression → List Token → PRes Expression
  | 0, _, _ => Except.error "recursion limit"
  | fuel + 1, left, ts =>
    match matchEqualityOperator (peekT ts) with
    | none => Except.ok (left, ts)
    | some op =>
      match parseComparisonExpression pe fuel ts.tail with
      | Except.error e => Except.error e
      | Except.ok (right, ts) =>
          eqLoop pe fuel (Expression.binaryOp left op right) ts

/-- `Parser::parse_equality_expression`. -/
def parseEqualityExpression (pe : List Token → PRes Expression) (fuel : Nat)
    (ts : List Token) : PRes Expression :=
  match parseComparisonExpression pe fuel ts with
  | Except.error e => Except.error e
  | Except.ok (left, ts) => eqLoop pe fuel left ts

/-- The `AND` loop of `Parser::parse_and_expression`. -/
def andLoop (pe : List Token → PRes Expression) :
    Nat → Expression → List Token → PRes Expression
  | 0, _, _ => Except.error "recursion limit"
  | fuel + 1, left, ts =>
    if peekT ts = Token.andKw then
      match parseEqualityExpression pe fuel ts.tail with
      | Except.error e => Except.error e
      | Except.ok (right, ts) =>
          andLoop pe fuel
            (Expression.binaryOp left BinaryOperator.andOp right) ts
    else Except.ok (left, ts)

/-- `Parser::parse_and_expression`. -/
def parseAndExpression (pe : List Token → PRes Expression) (fuel : Nat)
    (ts : List Token) : PRes Expression :=
  match parseEqualityExpression pe fuel ts with
  | Except.error e => Except.error e
  | Except.ok (left, ts) => andLoop pe fuel left ts

/-- The `OR` loop of `Parser::parse_or_expression`. -/
def orLoop (pe : List Token → PRes Expression) :
    Nat → Expression → List Token → PRes Expression
  | 0, _, _ => Except.error "recursion limit"
  | fuel + 1, left, ts =>
    if peekT ts = Token.orKw then
      match parseAndExpression pe fuel ts.tail with
      | Except.error e => Except.error e
      | Except.ok (right, ts) =>
          orLoop pe fuel (Expression.binaryOp left BinaryOperator.orOp right) ts
    else Except.ok (left, ts)

/-- `Parser::parse_or_expression`. -/
def parseOrExpression (pe : List Token → PRes Expression) (fuel : Nat)
    (ts : List Token) : PRes Expression :=
  match parseAndExpression pe fuel ts with
  | Except.error e => Except.error e
  | Except.ok (left, ts) => orLoop pe fuel left ts

/-- `Parser::parse_expression`: the precedence tower from `OR` down to
primary expressions.  Recursion through nested expressions (parentheses,
function arguments) is tied off with fuel; `fuel` bounds the nesting depth
and loop lengths, and every concrete statement below supplies enough of it. -/
def parseExpression : Nat → List Token → PRes Expression
  | 0 => fun _ => Except.error "recursion limit"
  | fuel + 1 => fun ts => parseOrExpression (parseExpression fuel) fuel ts

end SQL

namespace Exec

/-- The `Value` enum of `src/db/storage/mod.rs`.  `f64` payloads are
modelled by rationals: every behaviour at issue in the claims depends only
on which match arm fires and on comparison with the literal zero, both of
which rationals reproduce exactly; no rounding behaviour is relied on. -/
inductive Value : Type
  | null
  | integer (i : Int)
  | float (f : Rat)
  | text (s : String)
  | boolean (b : Bool)
deriving DecidableEq

/-- `Executor::eval_binary_op` from `src/db/executor/mod.rs`.  `Plus` has
four numeric arms, promoting a mixed `Integer`/`Float` pair to `Float`;
`Minus`, `Multiply` and `Divide` only have the two same-type arms, so a
mixed pair falls through to `Null`.  Division arms carry a nonzero guard on
the divisor; a zero divisor falls through to `Null`.  `i64` division
truncates toward zero (`Int.tdiv`).  Every other operator yields `Null`. -/
def evalBinaryOp (left : Value) (op : SQL.BinaryOperator) (right : Value) :
    Value :=
  match op with
  | SQL.BinaryOperator.plus =>
    match left, right with
    | Value.integer a, Value.integer b => Value.integer (a + b)
    | Value.float a, Value.float b => Value.float (a + b)
    | Value.integer a, Value.float b => Value.float ((a : Rat) + b)
    | Value.float a, Value.integer b => Value.float (a + (b : Rat))
    | _, _ => Value.null
  | SQL.BinaryOperator.minus =>
    match left, right with
    | Value.integer a, Value.integer b => Value.integer (a - b)
    | Value.float a, Value.float b => Value.float (a - b)
    | _, _ => Value.null
  | SQL.BinaryOperator.multiply =>
    match left, right with
    | Value.integer a, Value.integer b => Value.integer (a * b)
    | Value.float a, Value.float b => Value.float (a * b)
    | _, _ => Value.null
  | SQL.BinaryOperator.divide =>
    match left, right with
    | Value.integer a, Value.integer b =>
        if b ≠ 0 then Value.integer (Int.tdiv a b) else Value.null
    | Value.float a, Value.float b =>
        if b ≠ 0 then Value.float (a / b) else Value.null
    | _, _ => Value.null
  | _ => Value.null

end Exec

namespace Like

/-- A model of the fragment of the `regex` crate's pattern language that
`Executor::match_like` can produce and that the claims exercise: literal
characters, `.` (any single character), postfix `*`, grouping parentheses
and `|` alternation.  `none` stands for `Regex::new` returning `Err` (an
invalid pattern, e.g. an unmatched parenthesis). -/
inductive Rx : Type
  | fail
  | eps
  | lit (c : Char)
  | anyChar
  | seq (a b : Rx)
  | alt (a b : Rx)
  | star (a : Rx)
deriving DecidableEq

/-- Whether a regex accepts the empty string. -/
def nullable : Rx → Bool
  | Rx.fail => false
  | Rx.eps => true
  | Rx.lit _ => false
  | Rx.anyChar => false
  | Rx.seq a b => nullable a && nullable b
  | Rx.alt a b => nullable a || nullable b
  | Rx.star _ => true

/-- Brzozowski derivative of a regex with respect to one character. -/
def deriv (c : Char) : Rx → Rx
  | Rx.fail => Rx.fail
  | Rx.eps => Rx.fail
  | Rx.lit a => if a = c then Rx.eps else Rx.fail
  | Rx.anyChar => Rx.eps
  | Rx.seq a b =>
      if nullable a then Rx.alt (Rx.seq (deriv c a) b) (deriv c b)
      else Rx.seq (deriv c a) b
  | Rx.alt a b => Rx.alt (deriv c a) (deriv c b)
  | Rx.star a => Rx.seq (deriv c a) (Rx.star a)

/-- Whole-string regex matching via derivatives. -/
def rxMatch (r : Rx) (s : List Char) : Bool :=
  nullable (s.foldl (fun r c => deriv c r) r)

/-- Postfix `*` repetition applied to a parsed atom. -/
def applyStars : List Char → Rx → Rx × List Char
  | '*' :: rest, r => applyStars rest (Rx.star r)
  | cs, r => (r, cs)

/-- One atom of the modelled regex fragment: a literal character, `.` or a
parenthesized alternation (parsed by the callback `pa`); a dangling `*`,
`|`, `)` or an unmatched `(` makes the parse fail.  Parse failure (`none`)
models `Regex::new` returning `Err` for an invalid pattern. -/
def parseAtom (pa : List Char → Option (Rx × List Char)) :
    List Char → Option (Rx × List Char)
  | '(' :: rest =>
    match pa rest with
    | none => none
    | some (r, rest) =>
      match rest with
      | ')' :: rest => some (r, rest)
      | _ => none
  | '.' :: rest => some (Rx.anyChar, rest)
  | ')' :: _ => none
  | '|' :: _ => none
  | '*' :: _ => none
  | c :: rest => some (Rx.lit c, rest)
  | [] => none

/-- A sequence of starred atoms, ending at `)`, `|` or the end of input. -/
def parseSeq (pa : List Char → Option (Rx × List Char)) :
    Nat → List Char → Option (Rx × List Char)
  | 0, _ => none
  | fuel + 1, cs =>
    match cs with
    | [] => some (Rx.eps, [])
    | ')' :: _ => some (Rx.eps, cs)
    | '|' :: _ => some (Rx.eps, cs)
    | _ =>
      match parseAtom pa cs with
      | none => none
      | some (r, rest) =>
        match applyStars rest r with
        | (r, rest) =>
          match parseSeq pa fuel rest with
          | none => none
          | some (r2, rest) => some (Rx.seq r r2, rest)

/-- An alternation of sequences, with the nested-alternation continuation
supplied by the callback. -/
def parseAltCore (pa : List Char → Option (Rx × List Char)) (fuel : Nat)
    (cs : List Char) : Option (Rx × List Char) :=
  match parseSeq pa fuel cs with
  | none => none
  | some (r, rest) =>
    match rest with
    | '|' :: rest =>
      match pa rest with
      | none => none
      | some (r2, rest) => some (Rx.alt r r2, rest)
    | _ => some (r, rest)

/-- Top-level parser of the modelled regex fragment; the fuel bounds group
nesting and pattern length and every concrete statement below supplies
enough of it. -/
def parseAlt : Nat → List Char → Option (Rx × List Char)
  | 0 => fun _ => none
  | fuel + 1 => fun cs => parseAltCore (parseAlt fuel) fuel cs

/-- A whole pattern is valid when it parses with nothing left over (a stray
`)` leaves a remainder and is thus invalid, as in the regex crate). -/
def rxParse (fuel : Nat) (p : List Char) : Option Rx :=
  match parseAlt fuel p with
  | some (r, []) => some r
  | _ => none

/-- The `%` / `_` translation of `Executor::match_like`:
`pattern.replace('%', ".*").replace('_', ".")`. -/
def replaceChar (c : Char) (rep : List Char) : List Char → List Char
  | [] => []
  | x :: xs => (if x = c then rep else [x]) ++ replaceChar c rep xs

/-- The translated pattern: `%` becomes `.*`, then `_` becomes `.`.  No
other character is escaped. -/
def likeTranslate (p : List Char) : List Char :=
  replaceChar '_' ['.'] (replaceChar '%' ['.', '*'] p)

/-- `Executor::match_like`: builds `^<translated>$` and calls
`Regex::new(..).map(|re| re.is_match(text)).unwrap_or(false)`.  Anchoring
with `^...$` makes `is_match` whole-string matching, which is how the
wrapped pattern is modelled; an invalid pattern (parse failure) yields
`false`. -/
def matchLike (fuel : Nat) (text pattern : List Char) : Bool :=
  match rxParse fuel (likeTranslate pattern) with
  | none => false
  | some r => rxMatch r text

end Like

/-- The tree obtained by inserting the 47 single-byte keys `[0] .. [46]`
(each with itself as value) into a fresh tree, in ascending order.  The
root (a leaf) fills up at 31 entries and is split by the 32nd insert; from
then on only the root's fullness is ever checked, so the right leaf grows
without bound. -/
def seqTree47 : Option BDB.Pager :=
  BDB.BPlusTree.batchGo 20 BDB.BPlusTree.openFresh
    ((List.range 47).map (fun i => ([i], [i])))

/-- The tree obtained by inserting the 32 single-byte keys `[0] .. [31]`
into a fresh tree in ascending order.  The 32nd insert splits the root
leaf: the left leaf keeps `[0] .. [14]`, the right leaf holds
`[15] .. [31]`, and `[15]` is promoted as the separator of the new root. -/
def seqTree32 : Option BDB.Pager :=
  BDB.BPlusTree.batchGo 20 BDB.BPlusTree.openFresh
    ((List.range 32).map (fun i => ([i], [i])))

/-- `seqTree32` after one further `insert([15], [99])`.  The key `[15]`
already lives in the right leaf, but descent routes `key <= separator` to
the left child, so a second copy of `[15]` is appended to the left leaf. -/
def dupTree : Option BDB.Pager :=
  match seqTree32 with
  | none => none
  | some p => BDB.BPlusTree.insert 20 p [15] [99]


/-!
Theorems settling the claims.
-/

/-- C1 counterexample: the claim fails on `insert`.  Starting from a
freshly opened and fully synced tree, a successful `BPlusTree::insert`
returns with its page writes still unsynced (`dirty = true`): `insert`
deliberately performs no `sync()` (the source comments that sync must be
requested explicitly or via `batch_insert`). -/
theorem C1_counterexample :
    (BDB.BPlusTree.insert 10 (BDB.Pager.sync BDB.BPlusTree.openFresh)
        [1] [2]).map BDB.Pager.dirty = some true := rfl

/-- C1 (amended): among the B+ tree mutations, `delete` and `batch_insert`
do call the pager's `sync()` (fsync) before returning, so their writes are
committed; `insert` alone does not. -/
theorem C1_theorem (fuel : Nat) (p : BDB.Pager) (key : BDB.Bytes)
    (entries : List (BDB.Bytes × BDB.Bytes)) (r : BDB.Pager × Bool)
    (r2 : BDB.Pager × Nat)
    (hd : BDB.BPlusTree.delete fuel p key = some r)
    (hb : BDB.BPlusTree.batchInsert fuel p entries = some r2) :
    r.1.dirty = false ∧ r2.1.dirty = false := by
  constructor
  · unfold BDB.BPlusTree.delete at hd
    rcases h : BDB.BPlusTree.deleteFromNode fuel p p.rootPage key with _ | ⟨p', d⟩
    · rw [h] at hd; exact absurd hd (by simp)
    · rw [h] at hd
      simp only [Option.some.injEq] at hd
      rw [← hd]
      rfl
  · unfold BDB.BPlusTree.batchInsert at hb
    rcases h : BDB.BPlusTree.batchGo fuel p entries with _ | p'
    · rw [h] at hb; exact absurd hb (by simp)
    · rw [h] at hb
      simp only [Option.some.injEq] at hb
      rw [← hb]
      rfl

/-- C1 witness: the amended theorem applied to a concrete delete and a
concrete (empty) batch insert on a fresh tree. -/
theorem C1_witness :
    (BDB.Pager.sync BDB.BPlusTree.openFresh, false).1.dirty = false ∧
    (BDB.Pager.sync BDB.BPlusTree.openFresh, 0).1.dirty = false :=
  C1_theorem 10 BDB.BPlusTree.openFresh [1] [] _ _ rfl rfl

/-- C2: evaluation of the code at the failing input.  Insert one row
(modelled `7`) into a fresh table, then `Storage::delete` with the
always-true predicate: the call returns deleted count `1` and the in-memory
vector is empty (both as the claim requires), but the mirrored B+ tree
still recovers the serialized deleted row — `delete` re-inserts surviving
rows without ever clearing the tree, contradicting its own "Clear and
rebuild B+ tree" comment. -/
theorem C2_theorem :
    ((Storage.storageInsert 20 Storage.freshTable 7).bind
        (fun s => Storage.storageDelete 20 s (fun _ => true))).map
      (fun r => (r.1.rows, r.2, Storage.treeRows 100 r.1)) =
    some ([], 1, some [Storage.serializeRow 7]) := rfl

/-- C3: evaluation of the code at the failing input.  After inserting the
47 ascending keys of `seqTree47`, the reachable nodes have entry counts
`[1, 15, 32]`: a leaf holds 32 entries, exceeding `O - 1 = 31`.  Children
encountered during descent are never split — `insert_into_node` recurses
into an internal node's child without any fullness check. -/
theorem C3_theorem :
    (seqTree47.bind (BDB.BPlusTree.reachableNodes 100)).map
        (fun ns => (ns.map BDB.BPlusNode.len,
          ns.any (fun n => decide (BDB.BTREE_ORDER - 1 < n.len)))) =
      some ([1, 15, 32], true) := rfl

/-- C4: evaluation of the code at the failing input.  After the inserts of
`dupTree` (keys `[0] .. [31]`, then `[15]` again), the scan's key sequence
is not strictly ascending: the key `[15]` is yielded twice.  The leaf split
promotes a copy of the right sibling's first key as the separator, while
descent routes `key <= separator` into the left child, so re-inserting the
promoted key puts a second copy in the left leaf. -/
theorem C4_theorem :
    (dupTree.bind (BDB.BPlusTree.scan 100)).map
        (fun l => (BDB.strictlyAscending (l.map (fun e => e.1)),
          (l.map (fun e => e.1)).count [15])) =
      some (false, 2) := rfl

/-- C5: evaluation of the code at the failing input.  In `seqTree32` the
key `[15]` is present and `count()` is 32; after `insert([15], [99])` the
stored pair `([15], [15])` is still present (the value was not overwritten
in place — a new pair `([15], [99])` was added in the other leaf) and
`count()` is 33, although the 33 inserts used only 32 distinct keys. -/
theorem C5_theorem :
    (seqTree32.bind (BDB.BPlusTree.scan 100)).map
        (fun l => (l.contains ([15], [15]), l.length)) = some (true, 32) ∧
    (dupTree.bind (BDB.BPlusTree.scan 100)).map
        (fun l => (l.contains ([15], [15]), l.contains ([15], [99]),
          l.length)) = some (true, true, 33) := ⟨rfl, rfl⟩

/-- C6: the connection handler answers each inbound frame with exactly one
frame: a `Query` frame with a `Result` frame whose payload is the JSON
serialization of the `ExecutionResult` (abstracted by `execSqlJson`), a
`Ping` frame with an empty-payload `Pong` frame — so the bytes
`[00 00 00 00][04]` elicit `[00 00 00 00][05]` — and a frame of any other
type with an `Error` frame whose payload is `"Unknown command"`. -/
theorem C6_theorem (execSqlJson : List Nat → List Nat) (m : Server.Message) :
    (m.msgType = Server.MessageType.query →
      Server.handleFrame execSqlJson m =
        { msgType := Server.MessageType.result
          payload := execSqlJson m.payload }) ∧
    (m.msgType = Server.MessageType.ping →
      Server.handleFrame execSqlJson m =
        { msgType := Server.MessageType.pong, payload := [] }) ∧
    (m.msgType ≠ Server.MessageType.query →
      m.msgType ≠ Server.MessageType.ping →
      Server.handleFrame execSqlJson m =
        { msgType := Server.MessageType.error
          payload := Server.unknownCommand }) ∧
    (Server.Message.readFrom [0, 0, 0, 0, 4]).map
        (fun mm => (Server.handleFrame execSqlJson mm).toBytes) =
      some [0, 0, 0, 0, 5] := by
  obtain ⟨t, pl⟩ := m
  refine ⟨?_, ?_, ?_, by
    simp [Server.Message.readFrom, Server.handleFrame, Server.Message.toBytes,
      Server.u32le, Server.MessageType.ofByte, Server.MessageType.code]⟩
  · intro h; cases h; rfl
  · intro h; cases h; rfl
  · intro hq hp
    cases t with
    | query => exact absurd rfl hq
    | ping => exact absurd rfl hp
    | result => rfl
    | error => rfl
    | pong => rfl

/-- C6 witness: the handler applied to one concrete frame of each kind. -/
theorem C6_witness :
    Server.handleFrame id
        { msgType := Server.MessageType.query, payload := [1, 2] } =
      { msgType := Server.MessageType.result, payload := [1, 2] } ∧
    Server.handleFrame id
        { msgType := Server.MessageType.ping, payload := [] } =
      { msgType := Server.MessageType.pong, payload := [] } ∧
    Server.handleFrame id
        { msgType := Server.MessageType.result, payload := [] } =
      { msgType := Server.MessageType.error
        payload := Server.unknownCommand } :=
  ⟨(C6_theorem id ⟨Server.MessageType.query, [1, 2]⟩).1 rfl,
   (C6_theorem id ⟨Server.MessageType.ping, []⟩).2.1 rfl,
   (C6_theorem id ⟨Server.MessageType.result, []⟩).2.2.1
     (by decide) (by decide)⟩

/-- C7: the if-not-exists / if-exists flags of the catalog mutations.  When
the named database (resp. table of the current database) already exists,
`create_database` / `create_table` with the flag set return success with
the state completely unchanged, and without the flag return the
already-exists error; when the name is absent, `drop_database` /
`drop_table` with the flag set return success with the state unchanged, and
without the flag return the not-found error.  (Error returns happen before
any mutation, so the state is unchanged there as well.) -/
theorem C7_theorem (d : Catalog.CatalogData) (name dbName : String)
    (cols : List Catalog.ColumnSchema) (now : String)
    (db : Catalog.DatabaseSchema) :
    ((BDB.alookup d.databases name).isSome →
      Catalog.createDatabase name true d = Except.ok d ∧
      Catalog.createDatabase name false d =
        Except.error ("Database " ++ name ++ " already exists")) ∧
    ((BDB.alookup d.databases name).isNone →
      Catalog.dropDatabase name true d = Except.ok d ∧
      Catalog.dropDatabase name false d =
        Except.error ("Database " ++ name ++ " does not exist")) ∧
    (d.currentDatabase = some dbName →
      BDB.alookup d.databases dbName = some db →
      ((BDB.alookup db.tables name).isSome →
        Catalog.createTable name cols true now d = Except.ok d ∧
        Catalog.createTable name cols false now d =
          Except.error ("Table " ++ name ++ " already exists")) ∧
      ((BDB.alookup db.tables name).isNone →
        Catalog.dropTable name true d = Except.ok d ∧
        Catalog.dropTable name false d =
          Except.error ("Table " ++ name ++ " does not exist"))) := by
  refine ⟨fun h => ?_, fun h => ?_, fun hcur hdb => ⟨fun h => ?_, fun h => ?_⟩⟩
  · constructor <;> simp [Catalog.createDatabase, h]
  · constructor <;> simp [Catalog.dropDatabase, h]
  · constructor <;> simp [Catalog.createTable, hcur, hdb, h]
  · constructor <;> simp [Catalog.dropTable, hcur, hdb, h]

/-- C7 witness: the flag semantics at a concrete catalog (database
`default` with table `t` exists; `nosuch` does not). -/
theorem C7_witness :
    Catalog.createDatabase "default" true Catalog.exampleCatalog =
      Except.ok Catalog.exampleCatalog ∧
    Catalog.dropDatabase "nosuch" true Catalog.exampleCatalog =
      Except.ok Catalog.exampleCatalog ∧
    Catalog.createTable "t" [] true "ts" Catalog.exampleCatalog =
      Except.ok Catalog.exampleCatalog ∧
    Catalog.dropTable "nosuch" true Catalog.exampleCatalog =
      Except.ok Catalog.exampleCatalog :=
  ⟨((C7_theorem Catalog.exampleCatalog "default" "default" [] "ts"
      Catalog.exampleDatabase).1 rfl).1,
   ((C7_theorem Catalog.exampleCatalog "nosuch" "default" [] "ts"
      Catalog.exampleDatabase).2.1 rfl).1,
   (((C7_theorem Catalog.exampleCatalog "t" "default" [] "ts"
      Catalog.exampleDatabase).2.2 rfl rfl).1 rfl).1,
   (((C7_theorem Catalog.exampleCatalog "nosuch" "default" [] "ts"
      Catalog.exampleDatabase).2.2 rfl rfl).2 rfl).1⟩

/-- When no comparison operator follows, the comparison loop returns its
accumulated left expression and the remaining tokens (helper for C8). -/
theorem compLoopNone (pe : List SQL.Token → SQL.PRes SQL.Expression)
    (g : Nat) (left : SQL.Expression) (ts : List SQL.Token)
    (h : SQL.matchComparisonOperator (SQL.peekT ts) = none) :
    SQL.compLoop pe (g + 1) left ts = Except.ok (left, ts) := by
  unfold SQL.compLoop
  rw [h]

/-- C8: the `BETWEEN` arm of `parse_comparison_expression`.  Whenever the
low and high bounds parse as additive expressions around the expected
`AND`, and no further comparison operator follows, the loop produces
exactly the conjunction `(e >= a) AND (e <= b)`: a `BinaryOp` with operator
`And` whose left side is `e GreaterThanOrEqual a` and whose right side is
`e LessThanOrEqual b`. -/
theorem C8_theorem (pe : List SQL.Token → SQL.PRes SQL.Expression)
    (fuel : Nat) (left low high : SQL.Expression)
    (ts1 ts2 ts3 : List SQL.Token) (hf : 0 < fuel)
    (h1 : SQL.parseAdditiveExpression pe fuel ts1 =
      Except.ok (low, SQL.Token.andKw :: ts2))
    (h2 : SQL.parseAdditiveExpression pe fuel ts2 = Except.ok (high, ts3))
    (h3 : SQL.matchComparisonOperator (SQL.peekT ts3) = none) :
    SQL.compLoop pe (fuel + 1) left (SQL.Token.betweenKw :: ts1) =
      Except.ok (SQL.Expression.binaryOp
        (SQL.Expression.binaryOp left
          SQL.BinaryOperator.greaterThanOrEqual low)
        SQL.BinaryOperator.andOp
        (SQL.Expression.binaryOp left
          SQL.BinaryOperator.lessThanOrEqual high), ts3) := by
  obtain ⟨g, rfl⟩ : ∃ g, fuel = g + 1 :=
    ⟨fuel - 1, (Nat.succ_pred_eq_of_pos hf).symm⟩
  have key : SQL.compLoop pe (g + 1)
      (SQL.Expression.binaryOp
        (SQL.Expression.binaryOp left
          SQL.BinaryOperator.greaterThanOrEqual low)
        SQL.BinaryOperator.andOp
        (SQL.Expression.binaryOp left
          SQL.BinaryOperator.lessThanOrEqual high)) ts3 =
      Except.ok (_, ts3) := compLoopNone pe g _ ts3 h3
  unfold SQL.compLoop
  dsimp only [SQL.peekT, List.headD, SQL.matchComparisonOperator, List.tail]
  rw [h1]
  dsimp only [SQL.expectT, SQL.peekT, List.headD]
  simp only [reduceIte]
  dsimp only [List.tail]
  rw [h2]
  exact key

/-- C8 witness: parsing the token stream of `x BETWEEN 1 AND 5`. -/
theorem C8_witness :
    SQL.compLoop (SQL.parseExpression 5) 6 (SQL.Expression.identifier "x")
      [SQL.Token.betweenKw, SQL.Token.numberLit "1", SQL.Token.andKw,
        SQL.Token.numberLit "5"] =
      Except.ok (SQL.Expression.binaryOp
        (SQL.Expression.binaryOp (SQL.Expression.identifier "x")
          SQL.BinaryOperator.greaterThanOrEqual
          (SQL.Expression.literal (SQL.Literal.number "1")))
        SQL.BinaryOperator.andOp
        (SQL.Expression.binaryOp (SQL.Expression.identifier "x")
          SQL.BinaryOperator.lessThanOrEqual
          (SQL.Expression.literal (SQL.Literal.number "5"))), []) :=
  C8_theorem (SQL.parseExpression 5) 5 (SQL.Expression.identifier "x")
    (SQL.Expression.literal (SQL.Literal.number "1"))
    (SQL.Expression.literal (SQL.Literal.number "5"))
    [SQL.Token.numberLit "1", SQL.Token.andKw, SQL.Token.numberLit "5"]
    [SQL.Token.numberLit "5"] [] (by decide) rfl rfl rfl

/-- C9 counterexample: the claim fails for `-` (and likewise `*`, `/`).
`eval_binary_op` on the mixed pair `Integer 1 - Float 2` yields `Null`, not
the float `-1` the claimed promotion would give: only `Plus` has the
mixed-operand arms. -/
theorem C9_counterexample :
    Exec.evalBinaryOp (Exec.Value.integer 1) SQL.BinaryOperator.minus
        (Exec.Value.float 2) = Exec.Value.null ∧
    Exec.evalBinaryOp (Exec.Value.integer 1) SQL.BinaryOperator.minus
        (Exec.Value.float 2) ≠ Exec.Value.float (1 - 2) := by decide

/-- C9 (amended): `+` promotes a mixed `Integer`/`Float` pair to a `Float`
result, while `-`, `*` and `/` evaluate every mixed pair to `Null`; and
division by zero — integer or float — evaluates to `Null` rather than
failing. -/
theorem C9_theorem (a : Int) (b : Rat) :
    Exec.evalBinaryOp (Exec.Value.integer a) SQL.BinaryOperator.plus
        (Exec.Value.float b) = Exec.Value.float ((a : Rat) + b) ∧
    Exec.evalBinaryOp (Exec.Value.float b) SQL.BinaryOperator.plus
        (Exec.Value.integer a) = Exec.Value.float (b + (a : Rat)) ∧
    Exec.evalBinaryOp (Exec.Value.integer a) SQL.BinaryOperator.minus
        (Exec.Value.float b) = Exec.Value.null ∧
    Exec.evalBinaryOp (Exec.Value.float b) SQL.BinaryOperator.minus
        (Exec.Value.integer a) = Exec.Value.null ∧
    Exec.evalBinaryOp (Exec.Value.integer a) SQL.BinaryOperator.multiply
        (Exec.Value.float b) = Exec.Value.null ∧
    Exec.evalBinaryOp (Exec.Value.float b) SQL.BinaryOperator.multiply
        (Exec.Value.integer a) = Exec.Value.null ∧
    Exec.evalBinaryOp (Exec.Value.integer a) SQL.BinaryOperator.divide
        (Exec.Value.float b) = Exec.Value.null ∧
    Exec.evalBinaryOp (Exec.Value.float b) SQL.BinaryOperator.divide
        (Exec.Value.integer a) = Exec.Value.null ∧
    Exec.evalBinaryOp (Exec.Value.integer a) SQL.BinaryOperator.divide
        (Exec.Value.integer 0) = Exec.Value.null ∧
    Exec.evalBinaryOp (Exec.Value.float b) SQL.BinaryOperator.divide
        (Exec.Value.float 0) = Exec.Value.null := by
  refine ⟨rfl, rfl, rfl, rfl, rfl, rfl, rfl, rfl, ?_, ?_⟩ <;>
    simp [Exec.evalBinaryOp]

/-- C10: the LIKE matcher translates only `%` and `_` and does not escape
other regex metacharacters: the pattern character `.` matches an arbitrary
single character, so `match_like("abc", "a.c")` is true; the pattern `a(c`
compiles to an invalid regex; matching any text against it — even the
literally identical text — yields false; and in general every pattern whose
translation fails to compile makes the match evaluate to false instead of
erroring. -/
theorem C10_theorem (text pattern : List Char) (fuel : Nat)
    (h : Like.rxParse fuel (Like.likeTranslate pattern) = none) :
    Like.matchLike 50 "abc".toList "a.c".toList = true ∧
    Like.rxParse 50 (Like.likeTranslate "a(c".toList) = none ∧
    Like.matchLike 50 "a(c".toList "a(c".toList = false ∧
    Like.matchLike fuel text pattern = false := by
  refine ⟨rfl, rfl, rfl, ?_⟩
  simp [Like.matchLike, h]

/-- C10 witness: the theorem applied to the unmatched-parenthesis pattern
`(` against the text `x`. -/
theorem C10_witness :
    Like.matchLike 50 "abc".toList "a.c".toList = true ∧
    Like.rxParse 50 (Like.likeTranslate "a(c".toList) = none ∧
    Like.matchLike 50 "a(c".toList "a(c".toList = false ∧
    Like.matchLike 50 "x".toList "(".toList = false :=
  C10_theorem "x".toList "(".toList 50 rfl
